import Mathlib

/-!
Verification development for the firearm-background-check / census analysis
pipeline (`Investigate_a_Dataset.py`).  The script is a linear sequence of
pandas transformations over two in-memory tables; this file gives a shallow
embedding of the cleaned tables, the cleaning steps and the five research
aggregations, and proves (or refutes) the specification's claims about them.

Modelling conventions:
* a cleaned background-check row (after the script drops the transaction
  columns, splits `month` into `year`/`month_no` and drops `month`) is a
  `GunRow`;
* a census row (after transposition, header promotion and positional column
  selection) is a `CensusRow`; its cells are `Cell` values (a raw string, a
  parsed rational number, or the missing-value marker `na` standing for NaN);
* machine floats are modelled as exact rationals; `int(...)` truncation is
  `pyInt` (truncation toward zero, as Python's `int`);
* pandas `groupby` sorts its keys ascending, which is modelled by
  `List.insertionSort` over deduplicated keys;
* fallible steps (pandas operations that can raise) return `Except`.
-/

namespace FirearmCensus

/-- One row of the cleaned background-check table: columns `month_no`, `year`,
`state`, `totals` (the order the script leaves them in after reordering and
dropping the combined `month` column). -/
structure GunRow where
  state : String
  year : ℤ
  monthNo : ℕ
  totals : ℤ
  deriving DecidableEq

/-- Strict lexicographic order on character lists by code point; this is the
order Python/pandas use when sorting the string keys of a `groupby`. -/
def lexLt : List Char → List Char → Bool
  | [], [] => false
  | [], _ :: _ => true
  | _ :: _, [] => false
  | a :: as, b :: bs =>
    a.toNat < b.toNat || (a.toNat == b.toNat && lexLt as bs)

/-- Strict code-point order on strings. -/
def strLt (a b : String) : Bool := lexLt a.data b.data

/-- Reflexive code-point order on strings. -/
def strLe (a b : String) : Prop := strLt a b = true ∨ a = b

instance : DecidableRel strLe := fun a b =>
  inferInstanceAs (Decidable (strLt a b = true ∨ a = b))

/-- Lexicographic `(state, year)` order used by `groupby(['state', 'year'])`,
which sorts its group keys ascending. -/
def keyLe (a b : String × ℤ) : Prop :=
  strLt a.1 b.1 = true ∨ (a.1 = b.1 ∧ a.2 ≤ b.2)

instance : DecidableRel keyLe := fun a b =>
  inferInstanceAs (Decidable (strLt a.1 b.1 = true ∨ (a.1 = b.1 ∧ a.2 ≤ b.2)))

/-- The distinct `(state, year)` keys of the gun table in the ascending order in
which `gun.groupby(['state', 'year'])` produces them. -/
def gunKeys (g : List GunRow) : List (String × ℤ) :=
  List.insertionSort keyLe ((g.map fun r => (r.state, r.year)).dedup)

/-- Sum of `totals` over the rows of one `(state, year)` group. -/
def sumSY (g : List GunRow) (k : String × ℤ) : ℤ :=
  ((g.filter fun r => r.state == k.1 && r.year == k.2).map (·.totals)).sum

/-- `years_sum = gun.groupby(['state', 'year'])['totals'].sum().reset_index()`:
one row `(state, year, summed totals)` per group, keys ascending. -/
def yearsSum (g : List GunRow) : List (String × ℤ × ℤ) :=
  (gunKeys g).map fun k => (k.1, k.2, sumSY g k)

/-- `time_years = years_sum.iloc[1:19, :].groupby('year')['totals'].sum()
.reset_index()`: the script slices POSITIONAL rows 1..18 of the per-(state,
year) table `years_sum`, then groups that slice by year and sums. -/
def timeYears (g : List GunRow) : List (ℤ × ℤ) :=
  let sl := ((yearsSum g).drop 1).take 18
  (List.insertionSort (· ≤ ·) ((sl.map fun x => x.2.1).dedup)).map fun y =>
    (y, ((sl.filter fun x => x.2.1 == y).map fun x => x.2.2).sum)

/-- The five non-state territory names removed from the gun table. -/
def territories : List String :=
  ["Guam", "District of Columbia", "Mariana Islands", "Puerto Rico",
   "Virgin Islands"]

/-- The 50 U.S. state names as they appear in the background-check data. -/
def states50 : List String :=
  ["Alabama", "Alaska", "Arizona", "Arkansas", "California", "Colorado",
   "Connecticut", "Delaware", "Florida", "Georgia", "Hawaii", "Idaho",
   "Illinois", "Indiana", "Iowa", "Kansas", "Kentucky", "Louisiana", "Maine",
   "Maryland", "Massachusetts", "Michigan", "Minnesota", "Mississippi",
   "Missouri", "Montana", "Nebraska", "Nevada", "New Hampshire", "New Jersey",
   "New Mexico", "New York", "North Carolina", "North Dakota", "Ohio",
   "Oklahoma", "Oregon", "Pennsylvania", "Rhode Island", "South Carolina",
   "South Dakota", "Tennessee", "Texas", "Utah", "Vermont", "Virginia",
   "Washington", "West Virginia", "Wisconsin", "Wyoming"]

/-- `gun = gun.drop(gun[gun.state.isin([...])].index)`: remove every row whose
state is one of the five territory names. -/
def dropTerritories (g : List GunRow) : List GunRow :=
  g.filter fun r => !(territories.contains r.state)

/-- One table cell: a raw string (as read from the CSV), a parsed rational
number (modelling a float), or the missing-value marker (NaN). -/
inductive Cell where
  | str (s : String)
  | num (q : ℚ)
  | na
  deriving DecidableEq

/-- One row of the census table after transposition, header promotion,
`reset_index` and positional column selection: the `state` key, the
`population_estimates` cell, and the demographic/education/poverty cells in
positional order (columns `2:` of the selected frame). -/
structure CensusRow where
  state : String
  popEst : Cell
  demo : List Cell
  deriving DecidableEq

/-- Split a character list at every occurrence of `sep`. -/
def splitOnChar (sep : Char) : List Char → List (List Char)
  | [] => [[]]
  | c :: cs =>
    let r := splitOnChar sep cs
    if c = sep then [] :: r
    else
      match r with
      | [] => [[c]]
      | h :: t => (c :: h) :: t

/-- Value of a digit string, most significant first. -/
def digitsToNat (l : List Char) : ℕ :=
  l.foldl (fun n c => 10 * n + (c.toNat - 48)) 0

/-- Decimal parse used to model `astype('float')` and `pd.to_numeric` on this
data's cells: a nonnegative integer or decimal-point numeral parses, anything
else does not.  (Python's `float` accepts further forms — signs, exponents,
spaces — but none of those occur in the cells this pipeline touches.) -/
def parseDecL (l : List Char) : Option ℚ :=
  match splitOnChar '.' l with
  | [a] =>
    if !a.isEmpty && a.all (·.isDigit) then some (digitsToNat a : ℚ) else none
  | [a, b] =>
    if (!a.isEmpty || !b.isEmpty) && a.all (·.isDigit) && b.all (·.isDigit) then
      some ((digitsToNat a : ℚ) + (digitsToNat b : ℚ) / 10 ^ b.length)
    else none
  | _ => none

/-- Python's `int()` applied to a (modelled-as-rational) float value:
truncation toward zero. -/
def pyInt (q : ℚ) : ℤ := q.num.tdiv (q.den : ℤ)

/-- `census.replace(to_replace = "Z", value = '0.0%')` on one cell: an exact
match of the sentinel string is replaced; every other cell is unchanged. -/
def zCell (c : Cell) : Cell :=
  match c with
  | .str s => if s = "Z" then .str "0.0%" else .str s
  | c => c

/-- The sentinel replacement applied to a whole row (pandas `replace` visits
every column, the `state` column included). -/
def zRow (r : CensusRow) : CensusRow :=
  ⟨if r.state = "Z" then "0.0%" else r.state, zCell r.popEst, r.demo.map zCell⟩

/-- `census = census.replace(to_replace = "Z", value = '0.0%')`. -/
def zReplace (t : List CensusRow) : List CensusRow := t.map zRow

/-- `.replace('%', '', regex=True)` on one cell's string: every percent sign is
removed. -/
def stripPct (l : List Char) : List Char := l.filter (· != '%')

/-- One cell of `.replace('%','',regex=True).astype('float')/100`: strings are
stripped of percent signs and must parse (`astype` raises otherwise); numeric
cells are divided by 100 again; NaN stays NaN. -/
def pctCell (c : Cell) : Except Unit Cell :=
  match c with
  | .str s =>
    match parseDecL (stripPct s.data) with
    | some q => .ok (.num (q / 100))
    | none => .error ()
  | .num q => .ok (.num (q / 100))
  | .na => .ok .na

/-- Apply a fallible cell transform to every cell of a list, failing if any
cell fails. -/
def exceptMapCells (f : Cell → Except Unit Cell) : List Cell → Except Unit (List Cell)
  | [] => .ok []
  | c :: cs =>
    match f c with
    | .error e => .error e
    | .ok c' =>
      match exceptMapCells f cs with
      | .error e => .error e
      | .ok cs' => .ok (c' :: cs')

/-- Row positions selected by `np.r_[0:30, 42:50]` in the percent-conversion
assignment. -/
def pctRowIdx (i : ℕ) : Bool :=
  decide (i < 30) || (decide (42 ≤ i) && decide (i < 50))

/-- Action of the percent-conversion assignment on the row at position `i`:
a selected row has all its demographic cells converted, an unselected row is
left unchanged. -/
def percentStep (i : ℕ) (r : CensusRow) : Except Unit CensusRow :=
  if pctRowIdx i then
    (exceptMapCells pctCell r.demo).map fun d => ⟨r.state, r.popEst, d⟩
  else .ok r

/-- Worker for `census.iloc[np.r_[0:30, 42:50], 2:] = ...`: rows at the
selected positions have all their demographic cells percent-converted, other
rows are unchanged. -/
def percentRows : ℕ → List CensusRow → Except Unit (List CensusRow)
  | _, [] => .ok []
  | i, r :: rs =>
    match percentStep i r with
    | .error e => .error e
    | .ok r' =>
      match percentRows (i + 1) rs with
      | .error e => .error e
      | .ok rs' => .ok (r' :: rs')

/-- `census.iloc[np.r_[0:30, 42:50], 2:] = census.iloc[np.r_[0:30, 42:50], 2:]
.replace('%','',regex=True).astype('float')/100`; the positional row indexer
raises if the frame has fewer than 50 rows. -/
def percentConvert (t : List CensusRow) : Except Unit (List CensusRow) :=
  if 49 < t.length then percentRows 0 t else .error ()

/-- `pd.to_numeric(errors='coerce')` on one cell: strings that parse become
numbers, strings that do not become NaN; numeric and NaN cells are unchanged. -/
def toNumCell (c : Cell) : Cell :=
  match c with
  | .str s => match parseDecL s.data with | some q => .num q | none => .na
  | c => c

/-- `census[cols] = census[cols].apply(pd.to_numeric, errors='coerce')` where
`cols` is every column except `state` (the second argument of `columns.drop`
is silently consumed as its `errors` parameter, so `population_estimates` is
included). -/
def toNumeric (t : List CensusRow) : List CensusRow :=
  t.map fun r => ⟨r.state, toNumCell r.popEst, r.demo.map toNumCell⟩

/-- The census cell-cleaning pass in script order: sentinel replacement, then
percent conversion of the selected rows, then tolerant numeric coercion. -/
def censusCleanCells (t : List CensusRow) : Except Unit (List CensusRow) :=
  (percentConvert (zReplace t)).map toNumeric

/-- `gun['totals'].mean()` over the whole cleaned gun table. -/
def totalsMean (g : List GunRow) : ℚ :=
  ((g.map (·.totals)).sum : ℚ) / (g.length : ℚ)

/-- `bg_checks_mean = int(gun['totals'].mean())`. -/
def bg_checks_mean (g : List GunRow) : ℤ := pyInt (totalsMean g)

/-- Numeric view of a cell (`none` for strings and NaN). -/
def cellOpt : Cell → Option ℚ
  | .num q => some q
  | _ => none

/-- `census[col].mean()` for the demographic column at position `j`: pandas
`mean` skips NaN cells. -/
def colMeanSkipNa (c : List CensusRow) (j : ℕ) : ℚ :=
  let vs := c.filterMap fun row => cellOpt (row.demo.getD j Cell.na)
  vs.sum / (vs.length : ℚ)

/-- One ethnicity/education estimate: `census[col].mean() * bg_checks_mean`. -/
def ethnicityEstimate (j : ℕ) (c : List CensusRow) (g : List GunRow) : ℚ :=
  colMeanSkipNa c j * (bg_checks_mean g : ℚ)

/-- Distinct gun states in the ascending order `gun.groupby('state')` uses. -/
def statesSorted (g : List GunRow) : List String :=
  List.insertionSort strLe ((g.map (·.state)).dedup)

/-- Mean of `totals` over one state's rows. -/
def meanTotals (g : List GunRow) (s : String) : ℚ :=
  let v := (g.filter fun r => r.state == s).map (·.totals)
  (v.sum : ℚ) / (v.length : ℚ)

/-- `state_checks = gun.loc[:, ['state', 'totals']].groupby('state').mean()`:
per-state mean of totals, keys ascending. -/
def stateChecksMeanTbl (g : List GunRow) : List (String × ℚ) :=
  (statesSorted g).map fun s => (s, meanTotals g s)

/-- Inner-merge worker: for each left key (in left order) emit one row per
matching census row (pandas inner merge preserves the left keys' order). -/
def joinRows : List (String × ℚ) → List CensusRow → List (String × ℚ × CensusRow)
  | [], _ => []
  | km :: ks, c =>
    ((c.filter fun row => row.state == km.1).map fun row => (km.1, km.2, row)) ++
      joinRows ks c

/-- `merged = pd.merge(state_checks, census, on='state', how='inner')`. -/
def merged (g : List GunRow) (c : List CensusRow) : List (String × ℚ × CensusRow) :=
  joinRows (stateChecksMeanTbl g) c

/-- Position of `persons_in_poverty` among the demographic cells of the final
cleaned census table. -/
def povIdx : ℕ := 9

/-- The `persons_in_poverty` value of one cleaned census row. -/
def povOpt (r : CensusRow) : Option ℚ := cellOpt (r.demo.getD povIdx Cell.na)

/-- The full `census['persons_in_poverty']` column. -/
def povSeries (c : List CensusRow) : List (Option ℚ) := c.map povOpt

/-- Pandas series multiplication of two default-`RangeIndex` series: positional
pairing over the union of the index ranges, NaN where either side is missing. -/
def seriesMul : List (Option ℚ) → List (Option ℚ) → List (Option ℚ)
  | [], b => b.map fun _ => none
  | _ :: as, [] => none :: seriesMul as []
  | a :: as, b :: bs =>
    (match a, b with | some x, some y => some (x * y) | _, _ => none) ::
      seriesMul as bs

/-- `state_checks_mean = census['persons_in_poverty'] * merged['totals']`:
the FULL census poverty column multiplied positionally with the merged totals
column. -/
def state_checks_mean (g : List GunRow) (c : List CensusRow) : List (Option ℚ) :=
  seriesMul (povSeries c) ((merged g c).map fun x => some x.2.1)

/-- `percent_poverty = census['persons_in_poverty'] * 100`. -/
def percent_poverty (c : List CensusRow) : List (Option ℚ) :=
  (povSeries c).map (Option.map (· * 100))

/-- Formalisation of claim C2's wording, for refutation: one entry per state
present in both tables (inner join), pairing that state's poverty fraction
with that same state's mean of totals; missing states silently excluded. -/
def povertyPairsClaim (g : List GunRow) (c : List CensusRow) : List (Option ℚ) :=
  (stateChecksMeanTbl g).filterMap fun km =>
    match c.find? (fun row => row.state == km.1) with
    | some row => some ((povOpt row).map (· * km.2))
    | none => none

/-- Census row carrying only a poverty value (at position `povIdx`). -/
def mkPovRow (s : String) (q : ℚ) : CensusRow :=
  ⟨s, Cell.na,
   [Cell.na, Cell.na, Cell.na, Cell.na, Cell.na, Cell.na, Cell.na, Cell.na,
    Cell.na, Cell.num q]⟩

/-- Gun table containing only the second of two census states. -/
def gunOnlyBbb : List GunRow := [⟨"Bbb", 1999, 1, 10⟩]

/-- Census table with two states with distinct poverty fractions. -/
def censusAaaBbb : List CensusRow := [mkPovRow "Aaa" (1/10), mkPovRow "Bbb" (1/5)]

/-- Gun table matching `censusAaaBbb` state for state. -/
def gunAaaBbb : List GunRow := [⟨"Aaa", 1999, 1, 4⟩, ⟨"Bbb", 1999, 1, 10⟩]

/-- Gun table with totals {1, 2}: mean 3/2, truncated to 1. -/
def gunMeanFrac : List GunRow := [⟨"Aaa", 1999, 1, 1⟩, ⟨"Aaa", 1999, 2, 2⟩]

/-- One-state census table with a single demographic fraction 1/2. -/
def censusHalf : List CensusRow := [⟨"Aaa", Cell.na, [Cell.num (1/2)]⟩]

/-- Gun table whose totals mean is exactly 20000. -/
def gunMean20000 : List GunRow := [⟨"Aaa", 1999, 1, 20000⟩]

/-- Two-state census table whose demographic fractions average to 1/2. -/
def censusTwoFifths : List CensusRow :=
  [⟨"Aaa", Cell.na, [Cell.num (2/5)]⟩, ⟨"Bbb", Cell.na, [Cell.num (3/5)]⟩]

/-- Gun table with totals {1, 4}: mean 5/2, truncated to 2. -/
def gunMean52 : List GunRow := [⟨"Aaa", 1999, 1, 1⟩, ⟨"Aaa", 1999, 2, 4⟩]

/-- One-state census table with a single demographic fraction 1/5. -/
def censusFifth : List CensusRow := [⟨"Aaa", Cell.na, [Cell.num (1/5)]⟩]

/-- Pandas `drop_duplicates` (default `keep='first'`) as a function on row
lists: the first occurrence of each row value is kept, later exact duplicates
are dropped. -/
def dropDuplicates {α : Type} [DecidableEq α] : List α → List α
  | [] => []
  | a :: l => a :: (dropDuplicates l).filter fun b => decide (b ≠ a)

/-- One raw background-check row after the transaction columns are dropped:
the combined `month` field (e.g. "1999-01"), `state` and `totals`. -/
structure RawGunRow where
  month : String
  state : String
  totals : ℤ
  deriving DecidableEq

/-- `pd.DatetimeIndex(gun['month']).year` / `.month` on one "YYYY-MM" string:
the year and month numbers, or failure on a malformed date. -/
def parseYm (s : String) : Option (ℤ × ℕ) :=
  match splitOnChar '-' s.data with
  | [y, m] =>
    if !y.isEmpty && y.all (·.isDigit) && !m.isEmpty && m.all (·.isDigit) &&
        decide (1 ≤ digitsToNat m) && decide (digitsToNat m ≤ 12) then
      some ((digitsToNat y : ℤ), digitsToNat m)
    else none
  | _ => none

/-- Derive `year`/`month_no` for every row (`DatetimeIndex` raises on any
malformed date) and drop the combined `month` field. -/
def parseGunDates : List RawGunRow → Except Unit (List GunRow)
  | [] => .ok []
  | r :: rs =>
    match parseYm r.month with
    | none => .error ()
    | some ym =>
      match parseGunDates rs with
      | .error e => .error e
      | .ok rest => .ok (⟨r.state, ym.1, ym.2, r.totals⟩ :: rest)

/-- The gun-table cleaning pass in script order: split the `month` field into
`year`/`month_no`, drop `month`, remove territory rows.  The script only
prints `gun.duplicated().sum()` for this table; it never drops duplicates
from it. -/
def gunClean (raw : List RawGunRow) : Except Unit (List GunRow) :=
  (parseGunDates raw).map dropTerritories

/-- Raw gun table consisting of two identical rows. -/
def rawGunDup : List RawGunRow :=
  [⟨"1999-01", "Alaska", 5⟩, ⟨"1999-01", "Alaska", 5⟩]

/-- `gun.drop(gun.iloc[:, 2:26], inplace=True, axis=1)` at column level: the
positional slice `2:26` is clipped to the columns that exist, so the drop
keeps columns 0..1 and 26.. and never raises, whatever the table's width. -/
def gunDropTransactions (t : List (List Cell)) : Except String (List (List Cell)) :=
  .ok (t.map fun row => row.take 2 ++ row.drop 26)

/-- The column positions selected by
`census.iloc[:, np.r_[0,1, 13:21, 35:37, 50]]`. -/
def censusColIdx : List ℕ := [0, 1, 13, 14, 15, 16, 17, 18, 19, 20, 35, 36, 50]

/-- `census = census.iloc[:, np.r_[0,1, 13:21, 35:37, 50]]`: fancy positional
column selection; it raises a generic out-of-bounds indexing error (naming no
column) whenever some index is not below the frame's column count. -/
def censusSelectCols (ncols : ℕ) (t : List (List Cell)) :
    Except String (List (List Cell)) :=
  if censusColIdx.all fun j => decide (j < ncols) then
    .ok (t.map fun row => censusColIdx.map fun j => row.getD j Cell.na)
  else .error "positional indexers are out-of-bounds"

/-- Precondition on one raw demographic cell, by row kind: in a
percent-converted row the cell is the sentinel or a percent string whose
stripped numeral parses to at most 100; in an unconverted row the cell is a
string that either fails to parse or parses to at most 1. -/
def rawOk (b : Bool) (c : Cell) : Bool :=
  match b, c with
  | true, Cell.str s =>
    s == "Z" ||
      (match parseDecL (stripPct s.data) with
       | some q => decide (q ≤ 100)
       | none => false)
  | false, Cell.str s =>
    (match parseDecL s.data with
     | some q => decide (q ≤ 1)
     | none => true)
  | _, _ => false

/-- The raw-cell precondition over a whole table starting at row position
`i`. -/
def rowsRawOk : ℕ → List CensusRow → Bool
  | _, [] => true
  | i, r :: rs =>
    (r.demo.all fun c => rawOk (pctRowIdx i) c) && rowsRawOk (i + 1) rs

/-- A cleaned demographic cell: a number in [0, 1] or the missing marker. -/
def goodCell (c : Cell) : Prop :=
  (∃ q, c = Cell.num q ∧ 0 ≤ q ∧ q ≤ 1) ∨ c = Cell.na

/-- `years_sum.query('year == Y')` with the index reduced to `state`:
the per-state sums of one year, states ascending. -/
def checksOfYear (g : List GunRow) (y : ℤ) : List (String × ℤ) :=
  ((yearsSum g).filter fun x => x.2.1 == y).map fun x => (x.1, x.2.2)

/-- Index-aligned lookup of one state's value. -/
def lookupState (s : String) : List (String × ℤ) → Option ℤ
  | [] => none
  | p :: ps => if p.1 = s then some p.2 else lookupState s ps

/-- `diff = (checks_16.set_index('state') - checks_99.set_index('state'))
.dropna(axis=0)`: per-state difference of the 2016 and 1999 sums; states
present in only one year become NaN and are dropped.  (The frame also carries
a constant `year` difference column, dropped later by `iloc[0:5, [0, 2]]`.) -/
def diffTbl (g : List GunRow) : List (String × ℤ) :=
  (checksOfYear g 2016).filterMap fun p =>
    match lookupState p.1 (checksOfYear g 1999) with
    | some v => some (p.1, p.2 - v)
    | none => none

/-- Descending order on the `totals` difference used by
`diff.sort_values(by=['totals'], ascending=False)`. -/
def descBy (a b : String × ℤ) : Prop := b.2 ≤ a.2

instance : DecidableRel descBy := fun a b =>
  inferInstanceAs (Decidable (b.2 ≤ a.2))

instance : IsTotal (String × ℤ) descBy := ⟨fun a b => le_total b.2 a.2⟩

instance : IsTrans (String × ℤ) descBy := ⟨fun _ _ _ h1 h2 => le_trans h2 h1⟩

/-- `top_five = diff.sort_values(by=['totals'], ascending=False).head()`
followed by `top_five.iloc[0:5, [0, 2]]`: the first five states by descending
difference. -/
def top_five (g : List GunRow) : List (String × ℤ) :=
  (List.insertionSort descBy (diffTbl g)).take 5

/-- Gun table in which two states have equal 2016−1999 growth. -/
def gunTie : List GunRow :=
  [⟨"Aaa", 1999, 1, 10⟩, ⟨"Aaa", 2016, 1, 30⟩,
   ⟨"Bbb", 1999, 1, 5⟩, ⟨"Bbb", 2016, 1, 25⟩]

/-- Gun table with a 2016 sum of 3500000 and a 1999 sum of 0 for one state. -/
def gunKentucky : List GunRow :=
  [⟨"Kentucky", 2016, 1, 3500000⟩, ⟨"Kentucky", 1999, 1, 0⟩]

/-- Census row whose single demographic cell is a raw percent string. -/
def rowPctRaw : CensusRow := ⟨"Alabama", Cell.na, [Cell.str "50%"]⟩

/-- The same row after one percent conversion. -/
def rowPct1 : CensusRow := ⟨"Alabama", Cell.na, [Cell.num ((50 : ℚ) / 100)]⟩

/-- The same row after two percent conversions. -/
def rowPct2 : CensusRow := ⟨"Alabama", Cell.na, [Cell.num ((50 : ℚ) / 100 / 100)]⟩

/-- A 50-row census table of raw percent strings. -/
def censusRawFifty : List CensusRow :=
  List.replicate 30 rowPctRaw ++
    (List.replicate 12 rowPctRaw ++ List.replicate 8 rowPctRaw)

/-- `censusRawFifty` after one percent-conversion pass (rows 30..41 are not
selected and keep their raw strings). -/
def censusOnceFifty : List CensusRow :=
  List.replicate 30 rowPct1 ++
    (List.replicate 12 rowPctRaw ++ List.replicate 8 rowPct1)

/-- `censusOnceFifty` after a second percent-conversion pass: the already
converted cells are divided by 100 again. -/
def censusTwiceFifty : List CensusRow :=
  List.replicate 30 rowPct2 ++
    (List.replicate 12 rowPctRaw ++ List.replicate 8 rowPct2)

/-- Census row whose single demographic cell is the sentinel. -/
def rowSentinel : CensusRow := ⟨"Alabama", Cell.na, [Cell.str "Z"]⟩

/-- Census row whose single demographic cell is an unparseable string. -/
def rowUnparseable : CensusRow := ⟨"Montana", Cell.na, [Cell.str "x"]⟩

/-- A 50-row raw census table satisfying the raw-cell precondition. -/
def censusRawOkFifty : List CensusRow :=
  List.replicate 30 rowSentinel ++
    (List.replicate 12 rowUnparseable ++ List.replicate 8 rowSentinel)

/-- Concrete two-state gun table exhibiting the `iloc[1:19]` row slice of the
trend computation. -/
def gunTwoStates : List GunRow :=
  [⟨"Aaa", 2000, 1, 5⟩, ⟨"Bbb", 2000, 1, 7⟩]

/-- Gun table whose distinct states are exactly the 50 states plus the five
territories. -/
def gunAllKeys : List GunRow :=
  (states50 ++ territories).map fun s => ⟨s, 1999, 1, 0⟩

/-- Claim C1 (code bug): the script's comment says the trend computation
"filtered the years to include only years that had complete monthly data", and
the spec says totals are grouped by year and summed across all states; but
`years_sum.iloc[1:19, :]` slices positional rows 1..18 of the per-`(state,
year)` table, keeping (for the real data) a single state's rows.  On a
two-state table the year-2000 entry of `time_years` is 7 — the second row's
totals only — while the sum across all states for year 2000 is 12. -/
theorem trend_slice_code_bug :
    timeYears gunTwoStates = [((2000 : ℤ), (7 : ℤ))] ∧
    ((gunTwoStates.filter fun r => r.year == 2000).map (·.totals)).sum = 12 := by
  decide

/-- Claim C9: if the distinct states of the gun table are exactly the 50 U.S.
states together with the five territory names, then after territory filtering
the distinct state set is exactly the 50 U.S. states. -/
theorem territory_filter_states (g : List GunRow)
    (h : (g.map (·.state)).toFinset = (states50 ++ territories).toFinset) :
    ((dropTerritories g).map (·.state)).toFinset = states50.toFinset := by
  have hdisj : ∀ x ∈ states50, x ∉ territories := by decide
  ext s
  have hmem : s ∈ g.map (·.state) ↔ s ∈ states50 ∨ s ∈ territories := by
    have := Finset.ext_iff.mp h s
    simpa [List.mem_toFinset] using this
  simp only [List.mem_toFinset, dropTerritories, List.mem_map, List.mem_filter]
  constructor
  · rintro ⟨r, ⟨hr, hterr⟩, rfl⟩
    have hnt : r.state ∉ territories := by simpa using hterr
    have : r.state ∈ g.map (·.state) := List.mem_map.mpr ⟨r, hr, rfl⟩
    rcases hmem.mp this with h50 | hT
    · exact h50
    · exact absurd hT hnt
  · intro h50
    rcases List.mem_map.mp (hmem.mpr (Or.inl h50)) with ⟨r, hr, rfl⟩
    exact ⟨r, ⟨hr, by simpa using hdisj _ h50⟩, rfl⟩

/-- Claim C9 witness: the filter applied to a table containing one row per
state and per territory. -/
theorem territory_filter_states_witness :
    ((dropTerritories gunAllKeys).map (·.state)).toFinset = states50.toFinset :=
  territory_filter_states gunAllKeys
    (congrArg List.toFinset (by decide))

theorem joinRows_skip (ks : List (String × ℚ)) (r : CensusRow)
    (c : List CensusRow) (h : ∀ km ∈ ks, km.1 ≠ r.state) :
    joinRows ks (r :: c) = joinRows ks c := by
  induction ks with
  | nil => rfl
  | cons km ks ih =>
    have hne : (r.state == km.1) = false := by
      have := h km (by simp)
      simp only [beq_eq_false_iff_ne, ne_eq]
      exact fun e => this e.symm
    have hext := ih fun x hx => h x (by simp [hx])
    simp [joinRows, List.filter_cons, hne, hext]

theorem joinRows_self (m : String → ℚ) :
    ∀ c : List CensusRow, (c.map (·.state)).Nodup →
      joinRows (c.map fun row => (row.state, m row.state)) c =
        c.map fun row => (row.state, m row.state, row) := by
  intro c
  induction c with
  | nil => intro _; rfl
  | cons r rest ih =>
    intro hnd
    rw [List.map_cons] at hnd
    have hhead : r.state ∉ rest.map (·.state) := (List.nodup_cons.mp hnd).1
    have htail : (rest.map (·.state)).Nodup := (List.nodup_cons.mp hnd).2
    have hfilter : rest.filter (fun row => row.state == r.state) = [] := by
      rw [List.filter_eq_nil_iff]
      intro a ha
      simp only [beq_iff_eq]
      exact fun e => hhead (List.mem_map.mpr ⟨a, ha, e⟩)
    have hskip :
        joinRows (rest.map fun row => (row.state, m row.state)) (r :: rest) =
          joinRows (rest.map fun row => (row.state, m row.state)) rest := by
      refine joinRows_skip _ _ _ ?_
      rintro km hkm
      rcases List.mem_map.mp hkm with ⟨row, hrow, rfl⟩
      exact fun e => hhead (List.mem_map.mpr ⟨row, hrow, e⟩)
    simp [joinRows, List.filter_cons, hfilter, hskip, ih htail]

theorem seriesMul_map (f : CensusRow → Option ℚ) (h : CensusRow → ℚ) :
    ∀ c : List CensusRow,
      seriesMul (c.map f) (c.map fun row => some (h row)) =
        c.map fun row => (f row).map (· * h row) := by
  intro c
  induction c with
  | nil => rfl
  | cons r rest ih => cases hf : f r <;> simp [seriesMul, hf, ih]

/-- Claim C2 (counterexample): with a state missing from the gun table, the
product series does NOT pair each joined state's poverty with that state's
mean of totals, nor does it exclude the missing state — the full census
poverty column is multiplied positionally with the shorter merged totals
column, pairing "Aaa"'s poverty with "Bbb"'s mean and yielding a trailing
NaN. -/
theorem poverty_alignment_counterexample :
    state_checks_mean gunOnlyBbb censusAaaBbb = [some 1, none] ∧
    povertyPairsClaim gunOnlyBbb censusAaaBbb = [some 2] ∧
    state_checks_mean gunOnlyBbb censusAaaBbb ≠
      povertyPairsClaim gunOnlyBbb censusAaaBbb := by
  have hpov : ∀ s q, povOpt (mkPovRow s q) = some q := fun s q => rfl
  have hmean : meanTotals gunOnlyBbb "Bbb" = 10 := by
    norm_num [meanTotals, gunOnlyBbb]
  have hs : statesSorted gunOnlyBbb = ["Bbb"] := by decide
  have hkeys : stateChecksMeanTbl gunOnlyBbb = [("Bbb", 10)] := by
    unfold stateChecksMeanTbl
    rw [hs, List.map_singleton, hmean]
  have hm : merged gunOnlyBbb censusAaaBbb = [("Bbb", 10, mkPovRow "Bbb" (1/5))] := by
    unfold merged
    rw [hkeys]
    simp [joinRows, censusAaaBbb, mkPovRow]
  have h1 : state_checks_mean gunOnlyBbb censusAaaBbb = [some 1, none] := by
    unfold state_checks_mean
    rw [hm]
    show seriesMul [povOpt (mkPovRow "Aaa" (1/10)), povOpt (mkPovRow "Bbb" (1/5))]
        [some 10] = _
    rw [hpov, hpov]
    show [some ((1:ℚ)/10 * 10), none] = [some 1, none]
    norm_num
  have h2 : povertyPairsClaim gunOnlyBbb censusAaaBbb = [some 2] := by
    have hf : censusAaaBbb.find? (fun row => row.state == "Bbb") =
        some (mkPovRow "Bbb" (1/5)) := by
      simp [censusAaaBbb, mkPovRow, List.find?]
    unfold povertyPairsClaim
    rw [hkeys]
    simp only [List.filterMap_cons, List.filterMap_nil]
    norm_num [hf, hpov]
  refine ⟨h1, h2, ?_⟩
  rw [h1, h2]
  simp

/-- Claim C2 (amended): when the census state column coincides with the sorted
distinct gun states (as both do for the source data — the same 50 states in
alphabetical order), the positional product does pair each state's poverty
fraction with that same state's mean of totals, and the percent series is each
state's poverty fraction times 100. -/
theorem poverty_alignment_amended (g : List GunRow) (c : List CensusRow)
    (hc : c.map (·.state) = statesSorted g) :
    state_checks_mean g c =
      (c.map fun row => (povOpt row).map (· * meanTotals g row.state)) ∧
    percent_poverty c = c.map fun row => (povOpt row).map (· * 100) := by
  have hnd : (c.map (·.state)).Nodup := by
    rw [hc]
    exact (List.perm_insertionSort strLe _).symm.nodup
      (List.nodup_dedup (g.map (·.state)))
  have hm : merged g c = c.map fun row => (row.state, meanTotals g row.state, row) := by
    show joinRows (stateChecksMeanTbl g) c = _
    have : stateChecksMeanTbl g =
        c.map fun row => (row.state, meanTotals g row.state) := by
      show (statesSorted g).map (fun s => (s, meanTotals g s)) = _
      rw [← hc, List.map_map]
      rfl
    rw [this]
    exact joinRows_self (meanTotals g) c hnd
  constructor
  · show seriesMul (povSeries c) ((merged g c).map fun x => some x.2.1) = _
    rw [hm, List.map_map]
    exact seriesMul_map povOpt (fun row => meanTotals g row.state) c
  · show (povSeries c).map (Option.map (· * 100)) = _
    rw [povSeries, List.map_map]
    rfl

/-- Claim C2 witness: the amended statement at a concrete two-state pair of
tables whose state sets agree. -/
theorem poverty_alignment_amended_witness :
    state_checks_mean gunAaaBbb censusAaaBbb =
      (censusAaaBbb.map fun row =>
        (povOpt row).map (· * meanTotals gunAaaBbb row.state)) ∧
    percent_poverty censusAaaBbb =
      censusAaaBbb.map fun row => (povOpt row).map (· * 100) :=
  poverty_alignment_amended gunAaaBbb censusAaaBbb (by decide)

/-- Claim C6 (counterexample): with totals {1, 2} (mean 3/2, truncated by
`int()` to 1) and a uniform ethnicity fraction 1/2, the script's estimate is
1/2, not the exact mean-times-mean value 3/4. -/
theorem ethnicity_estimate_counterexample :
    ethnicityEstimate 0 censusHalf gunMeanFrac = 1 / 2 ∧
    colMeanSkipNa censusHalf 0 * totalsMean gunMeanFrac = 3 / 4 ∧
    ethnicityEstimate 0 censusHalf gunMeanFrac ≠
      colMeanSkipNa censusHalf 0 * totalsMean gunMeanFrac := by
  have hm : totalsMean gunMeanFrac = 3 / 2 := by
    norm_num [totalsMean, gunMeanFrac]
  have hb : bg_checks_mean gunMeanFrac = 1 := by
    unfold bg_checks_mean
    rw [hm]
    unfold pyInt
    norm_num
    decide
  have hc : colMeanSkipNa censusHalf 0 = 1 / 2 := by
    rw [show colMeanSkipNa censusHalf 0 = ((1 : ℚ)/2 + 0) / ((1 : ℕ) : ℚ) from rfl]
    norm_num
  have h1 : ethnicityEstimate 0 censusHalf gunMeanFrac = 1 / 2 := by
    unfold ethnicityEstimate
    rw [hb, hc]
    norm_num
  have h2 : colMeanSkipNa censusHalf 0 * totalsMean gunMeanFrac = 3 / 4 := by
    rw [hm, hc]
    norm_num
  exact ⟨h1, h2, by rw [h1, h2]; norm_num⟩

/-- Claim C6 (amended): the estimate is the mean fraction times the
`int()`-truncated mean of totals; in particular with a mean fraction of
exactly 1/2 and a totals mean of exactly 20000 (an integer, so truncation is
the identity) the estimate is exactly 10000. -/
theorem ethnicity_estimate_amended (j : ℕ) (c : List CensusRow)
    (g : List GunRow) (hfrac : colMeanSkipNa c j = 1 / 2)
    (hmean : totalsMean g = 20000) :
    ethnicityEstimate j c g = 10000 := by
  have h20000 : pyInt (20000 : ℚ) = 20000 := by decide
  unfold ethnicityEstimate bg_checks_mean
  rw [hfrac, hmean, h20000]
  norm_num

/-- Claim C6 witness: concrete tables with fraction mean 1/2 and totals mean
20000. -/
theorem ethnicity_estimate_amended_witness :
    ethnicityEstimate 0 censusTwoFifths gunMean20000 = 10000 :=
  ethnicity_estimate_amended 0 censusTwoFifths gunMean20000
    (by
      rw [show colMeanSkipNa censusTwoFifths 0 =
        ((2 : ℚ)/5 + (3/5 + 0)) / ((2 : ℕ) : ℚ) from rfl]
      norm_num)
    (by norm_num [totalsMean, gunMean20000])

/-- Claim C10: every ethnicity/education estimate is the column mean times the
`int()`-truncated overall mean of totals, and whenever that mean is not an
exact integer (and the column mean is nonzero) the estimate differs from the
value the exact mean would give. -/
theorem mean_truncation (j : ℕ) (c : List CensusRow) (g : List GunRow)
    (hint : (bg_checks_mean g : ℚ) ≠ totalsMean g)
    (hfrac : colMeanSkipNa c j ≠ 0) :
    ethnicityEstimate j c g = colMeanSkipNa c j * (bg_checks_mean g : ℚ) ∧
    ethnicityEstimate j c g ≠ colMeanSkipNa c j * totalsMean g := by
  refine ⟨rfl, ?_⟩
  unfold ethnicityEstimate
  intro h
  exact hint (mul_left_cancel₀ hfrac h)

/-- Claim C10 witness: totals {1, 4} have mean 5/2, truncated to 2; with
column mean 1/5 the estimate 2/5 differs from the exact-mean value 1/2. -/
theorem mean_truncation_witness :
    ethnicityEstimate 0 censusFifth gunMean52 =
      colMeanSkipNa censusFifth 0 * (bg_checks_mean gunMean52 : ℚ) ∧
    ethnicityEstimate 0 censusFifth gunMean52 ≠
      colMeanSkipNa censusFifth 0 * totalsMean gunMean52 :=
  mean_truncation 0 censusFifth gunMean52
    (by
      have h1 : totalsMean gunMean52 = 5 / 2 := by
        norm_num [totalsMean, gunMean52]
      rw [h1]
      intro h
      have h2 : ((2 * bg_checks_mean gunMean52 : ℤ) : ℚ) = 5 := by
        push_cast
        rw [h]
        norm_num
      have h3 : (2 * bg_checks_mean gunMean52 : ℤ) = 5 := by exact_mod_cast h2
      omega)
    (by
      rw [show colMeanSkipNa censusFifth 0 = ((1 : ℚ)/5 + 0) / ((1 : ℕ) : ℚ) from rfl]
      norm_num)

theorem dropDuplicates_length_le {α : Type} [DecidableEq α] :
    ∀ l : List α, (dropDuplicates l).length ≤ l.length := by
  intro l
  induction l with
  | nil => simp [dropDuplicates]
  | cons a l ih =>
    have hf := List.length_filter_le (fun b => decide (b ≠ a)) (dropDuplicates l)
    simp only [dropDuplicates, List.length_cons]
    omega

theorem dropDuplicates_nodup {α : Type} [DecidableEq α] :
    ∀ l : List α, (dropDuplicates l).Nodup := by
  intro l
  induction l with
  | nil => simp [dropDuplicates]
  | cons a l ih =>
    rw [dropDuplicates]
    refine List.nodup_cons.mpr ⟨?_, ih.filter _⟩
    intro hmem
    have := (List.mem_filter.mp hmem).2
    simp at this

theorem dropDuplicates_of_nodup {α : Type} [DecidableEq α] :
    ∀ l : List α, l.Nodup → dropDuplicates l = l := by
  intro l
  induction l with
  | nil => intro _; rfl
  | cons a l ih =>
    intro h
    rcases List.nodup_cons.mp h with ⟨ha, hl⟩
    rw [dropDuplicates, ih hl, List.filter_eq_self.mpr]
    intro b hb
    simp only [ne_eq, decide_eq_true_eq]
    exact fun e => ha (e ▸ hb)

/-- Claim C4 (counterexample): the gun table is never de-duplicated — the
script only prints its duplicate count — so with two identical raw rows, the
cleaned gun table still contains a duplicate row. -/
theorem gun_duplicates_persist :
    gunClean rawGunDup =
      .ok [(⟨"Alaska", 1999, 1, 5⟩ : GunRow), ⟨"Alaska", 1999, 1, 5⟩] ∧
    ¬ ([(⟨"Alaska", 1999, 1, 5⟩ : GunRow), ⟨"Alaska", 1999, 1, 5⟩]).Nodup := by
  constructor
  · rfl
  · decide

/-- Claim C4 (amended): the census table is de-duplicated (in its raw
pre-transpose orientation, before any other transform), and for that step the
row count never grows and no duplicate rows remain; the gun table is only
checked for duplicates, never de-duplicated. -/
theorem census_dedup_invariant {α : Type} [DecidableEq α] (l : List α) :
    (dropDuplicates l).length ≤ l.length ∧ (dropDuplicates l).Nodup :=
  ⟨dropDuplicates_length_le l, dropDuplicates_nodup l⟩

/-- Claim C5 (counterexample): on a gun table whose schema has drifted to only
three columns, the positional transaction-column drop silently succeeds by
clipping the slice — it does not abort with a SchemaError naming a column. -/
theorem schema_drift_no_error :
    gunDropTransactions [[Cell.na, Cell.na, Cell.na]] =
      .ok [[Cell.na, Cell.na]] := rfl

/-- Claim C5 (amended): the cleaner has no SchemaError.  The gun positional
slice drop never fails, whatever the table's width; and when the census frame
has at most 50 columns, the fancy positional selection aborts with pandas'
generic out-of-bounds indexing error, which names no column. -/
theorem schema_drift_amended (t : List (List Cell)) (n : ℕ) (hn : n ≤ 50)
    (rows : List (List Cell)) :
    (gunDropTransactions t).isOk = true ∧
    censusSelectCols n rows = .error "positional indexers are out-of-bounds" := by
  refine ⟨rfl, ?_⟩
  have hfalse : ¬ (censusColIdx.all fun j => decide (j < n)) = true := by
    intro hall
    rw [List.all_eq_true] at hall
    have h50 := hall 50 (by simp [censusColIdx])
    rw [decide_eq_true_eq] at h50
    omega
  unfold censusSelectCols
  rw [if_neg hfalse]

/-- Claim C5 witness: a one-row gun frame and a three-column census frame. -/
theorem schema_drift_amended_witness :
    (gunDropTransactions [[Cell.na]]).isOk = true ∧
    censusSelectCols 3 [[Cell.na]] =
      .error "positional indexers are out-of-bounds" :=
  schema_drift_amended [[Cell.na]] 3 (by omega) [[Cell.na]]

theorem gunKeys_nodup (g : List GunRow) : (gunKeys g).Nodup :=
  (List.perm_insertionSort keyLe _).symm.nodup
    (List.nodup_dedup (g.map fun r => (r.state, r.year)))

theorem checksOfYear_eq (g : List GunRow) (y : ℤ) :
    checksOfYear g y =
      ((gunKeys g).filter fun k => k.2 == y).map fun k => (k.1, sumSY g k) := by
  unfold checksOfYear yearsSum
  rw [List.filter_map, List.map_map]
  rfl

theorem checksOfYear_states_nodup (g : List GunRow) (y : ℤ) :
    ((checksOfYear g y).map Prod.fst).Nodup := by
  rw [checksOfYear_eq, List.map_map]
  have hfil : ((gunKeys g).filter fun k => k.2 == y).Nodup :=
    (gunKeys_nodup g).filter _
  refine hfil.map_on ?_
  intro x hx y' hy' hxy
  have hx2 : x.2 = y := by
    have := (List.mem_filter.mp hx).2
    simpa [beq_iff_eq] using this
  have hy2 : y'.2 = y := by
    have := (List.mem_filter.mp hy').2
    simpa [beq_iff_eq] using this
  have hfst : x.1 = y'.1 := hxy
  exact Prod.ext hfst (hx2.trans hy2.symm)

theorem lookupState_eq (s : String) (v : ℤ) :
    ∀ l : List (String × ℤ), (l.map Prod.fst).Nodup → (s, v) ∈ l →
      lookupState s l = some v := by
  intro l
  induction l with
  | nil => intro _ h; simp at h
  | cons p ps ih =>
    intro hnd hmem
    rw [List.map_cons] at hnd
    rcases List.nodup_cons.mp hnd with ⟨hp, hps⟩
    rcases List.mem_cons.mp hmem with h | h
    · have h1 : p.1 = s := congrArg Prod.fst h.symm
      have h2 : p.2 = v := congrArg Prod.snd h.symm
      rw [lookupState, if_pos h1, h2]
    · have hne : p.1 ≠ s := by
        intro e
        exact hp (e ▸ List.mem_map.mpr ⟨(s, v), h, rfl⟩)
      rw [lookupState, if_neg hne]
      exact ih hps h

/-- Claim C8 (amended): the growth result returns at most five states, sorted
(weakly) descending by the per-state difference of the 2016 and 1999 sums;
every state present in both reference years contributes its difference (so a
late sum of 3500000 against an early sum of 0 yields 3500000); and whenever
the per-state differences are pairwise distinct the ranking is strictly
decreasing.  (No stability guarantee: `sort_values` uses quicksort.) -/
theorem top_five_amended (g : List GunRow) :
    (top_five g).length ≤ 5 ∧
    List.Sorted descBy (top_five g) ∧
    (∀ s v16 v99, (s, v16) ∈ checksOfYear g 2016 →
      (s, v99) ∈ checksOfYear g 1999 → (s, v16 - v99) ∈ diffTbl g) ∧
    (((diffTbl g).map Prod.snd).Nodup →
      List.Sorted (fun a b : ℤ => b < a) ((top_five g).map Prod.snd)) := by
  have hsorted : List.Sorted descBy (List.insertionSort descBy (diffTbl g)) :=
    List.sorted_insertionSort descBy (diffTbl g)
  have htake : List.Sorted descBy (top_five g) :=
    hsorted.sublist (List.take_sublist 5 _)
  refine ⟨?_, htake, ?_, ?_⟩
  · unfold top_five
    rw [List.length_take]
    exact min_le_left _ _
  · intro s v16 v99 h16 h99
    have hl : lookupState s (checksOfYear g 1999) = some v99 :=
      lookupState_eq s v99 _ (checksOfYear_states_nodup g 1999) h99
    refine List.mem_filterMap.mpr ⟨(s, v16), h16, ?_⟩
    show (match lookupState s (checksOfYear g 1999) with
          | some v => some (s, v16 - v)
          | none => none) = some (s, v16 - v99)
    rw [hl]
  · intro hnd
    have hperm : List.Perm (List.insertionSort descBy (diffTbl g)) (diffTbl g) :=
      List.perm_insertionSort descBy (diffTbl g)
    have hnd2 : ((List.insertionSort descBy (diffTbl g)).map Prod.snd).Nodup :=
      ((hperm.map Prod.snd).symm).nodup hnd
    have hsub : List.Sublist ((top_five g).map Prod.snd)
        ((List.insertionSort descBy (diffTbl g)).map Prod.snd) := by
      unfold top_five
      rw [List.map_take]
      exact List.take_sublist _ _
    have hnds : ((top_five g).map Prod.snd).Nodup := hnd2.sublist hsub
    have hpw : List.Pairwise (fun a b : ℤ => b ≤ a) ((top_five g).map Prod.snd) :=
      List.pairwise_map.mpr htake
    exact (hpw.and hnds).imp fun h => lt_of_le_of_ne h.1 (Ne.symm h.2)

/-- Claim C8 (counterexample): with two states tied at growth 20, the output
values are [20, 20], so the ranking is not strictly descending. -/
theorem top_five_ties_counterexample :
    (top_five gunTie).map Prod.snd = [20, 20] ∧
    ¬ List.Sorted (fun a b : ℤ => b < a) ((top_five gunTie).map Prod.snd) := by
  have hv : (top_five gunTie).map Prod.snd = [20, 20] := by decide
  refine ⟨hv, ?_⟩
  rw [hv]
  intro h
  rcases List.sorted_cons.mp h with ⟨hall, _⟩
  have := hall 20 (by simp)
  omega

/-- Claim C8 witness: a state with a 2016 sum of 3500000 and a 1999 sum of 0
contributes difference 3500000, and the result has at most five entries. -/
theorem top_five_amended_witness :
    ("Kentucky", (3500000 : ℤ)) ∈ diffTbl gunKentucky ∧
    (top_five gunKentucky).length ≤ 5 := by
  have h := top_five_amended gunKentucky
  refine ⟨?_, h.1⟩
  have hmem := h.2.2.1 "Kentucky" 3500000 0 (by decide) (by decide)
  simpa using hmem

theorem zCell_idem (c : Cell) : zCell (zCell c) = zCell c := by
  cases c with
  | str s => by_cases h : s = "Z" <;> simp [zCell, h]
  | num q => rfl
  | na => rfl

theorem zRow_idem (r : CensusRow) : zRow (zRow r) = zRow r := by
  unfold zRow
  by_cases h : r.state = "Z" <;>
    simp [h, zCell_idem, List.map_map, Function.comp]

/-- Claim C3 (amended): the sentinel replacement and the de-duplication are
idempotent as table functions; the percent-to-decimal conversion is not (see
the counterexample: re-running it divides already-converted cells by 100
again). -/
theorem cleaning_steps_idempotent_amended :
    (∀ t : List CensusRow, zReplace (zReplace t) = zReplace t) ∧
    ∀ l : List (List Cell), dropDuplicates (dropDuplicates l) = dropDuplicates l := by
  constructor
  · intro t
    unfold zReplace
    rw [List.map_map]
    simp [Function.comp, zRow_idem]
  · intro l
    exact dropDuplicates_of_nodup _ (dropDuplicates_nodup l)

theorem percentRows_append (ys : List CensusRow) :
    ∀ (xs : List CensusRow) (i : ℕ) (xs' ys' : List CensusRow),
      percentRows i xs = .ok xs' →
      percentRows (i + xs.length) ys = .ok ys' →
      percentRows i (xs ++ ys) = .ok (xs' ++ ys') := by
  intro xs
  induction xs with
  | nil =>
    intro i xs' ys' h1 h2
    simp only [percentRows] at h1
    injection h1 with h1
    subst h1
    simpa using h2
  | cons r rs ih =>
    intro i xs' ys' h1 h2
    rw [List.cons_append]
    simp only [percentRows] at h1 ⊢
    split at h1
    next e hstep => exact absurd h1 (by simp)
    next r' hstep =>
      split at h1
      next e hrec => exact absurd h1 (by simp)
      next rest hrec =>
        injection h1 with h1
        subst h1
        have h2' : percentRows (i + 1 + rs.length) ys = .ok ys' := by
          have heq : i + 1 + rs.length = i + (r :: rs).length := by
            simp [List.length_cons]
            omega
          rw [heq]
          exact h2
        rw [ih (i + 1) rest ys' hrec h2']
        rfl

theorem percentRows_replicate (r r' : CensusRow) :
    ∀ (n i : ℕ), (∀ k, k < n → percentStep (i + k) r = .ok r') →
      percentRows i (List.replicate n r) = .ok (List.replicate n r') := by
  intro n
  induction n with
  | zero => intro i _; rfl
  | succ m ih =>
    intro i h
    rw [List.replicate_succ, List.replicate_succ]
    simp only [percentRows]
    have h0 : percentStep i r = .ok r' := by
      have := h 0 (Nat.succ_pos m)
      simpa using this
    rw [h0]
    have hrest : percentRows (i + 1) (List.replicate m r) =
        .ok (List.replicate m r') := by
      refine ih (i + 1) ?_
      intro k hk
      have hkk := h (k + 1) (by omega)
      have heq : i + (k + 1) = i + 1 + k := by omega
      rw [heq] at hkk
      exact hkk
    rw [hrest]

theorem pctCell_fifty :
    pctCell (Cell.str "50%") = .ok (Cell.num ((50 : ℚ) / 100)) := by
  have hparse : parseDecL (stripPct ("50%").data) = some (50 : ℚ) := by decide
  simp [pctCell, hparse]

theorem pctStep_raw (i : ℕ) (hi : pctRowIdx i = true) :
    percentStep i rowPctRaw = .ok rowPct1 := by
  unfold percentStep
  rw [hi]
  simp [rowPctRaw, rowPct1, exceptMapCells, pctCell_fifty, Except.map]

theorem pctStep_once (i : ℕ) (hi : pctRowIdx i = true) :
    percentStep i rowPct1 = .ok rowPct2 := by
  unfold percentStep
  rw [hi]
  simp [rowPct1, rowPct2, exceptMapCells, pctCell, Except.map]

theorem pctStep_skip (i : ℕ) (r : CensusRow) (hi : pctRowIdx i = false) :
    percentStep i r = .ok r := by
  unfold percentStep
  rw [hi]
  simp

theorem pctRowIdx_lo (k : ℕ) (hk : k < 30) : pctRowIdx (0 + k) = true := by
  simp [pctRowIdx]
  omega

theorem pctRowIdx_mid (k : ℕ) (hk : k < 12) : pctRowIdx (30 + k) = false := by
  simp [pctRowIdx]
  omega

theorem pctRowIdx_hi (k : ℕ) (hk : k < 8) : pctRowIdx (42 + k) = true := by
  simp [pctRowIdx]
  omega

theorem percentConvert_raw :
    percentConvert censusRawFifty = .ok censusOnceFifty := by
  have hlen : (49 : ℕ) < censusRawFifty.length := by simp [censusRawFifty]
  unfold percentConvert
  rw [if_pos hlen]
  unfold censusRawFifty censusOnceFifty
  refine percentRows_append _ _ 0 _ _
    (percentRows_replicate rowPctRaw rowPct1 30 0 fun k hk =>
      pctStep_raw (0 + k) (pctRowIdx_lo k hk)) ?_
  have h2 : percentRows 30
      (List.replicate 12 rowPctRaw ++ List.replicate 8 rowPctRaw) =
      .ok (List.replicate 12 rowPctRaw ++ List.replicate 8 rowPct1) := by
    refine percentRows_append _ _ 30 _ _
      (percentRows_replicate rowPctRaw rowPctRaw 12 30 fun k hk =>
        pctStep_skip (30 + k) _ (pctRowIdx_mid k hk)) ?_
    simpa using percentRows_replicate rowPctRaw rowPct1 8 42 fun k hk =>
      pctStep_raw (42 + k) (pctRowIdx_hi k hk)
  simpa using h2

theorem percentConvert_once :
    percentConvert censusOnceFifty = .ok censusTwiceFifty := by
  have hlen : (49 : ℕ) < censusOnceFifty.length := by simp [censusOnceFifty]
  unfold percentConvert
  rw [if_pos hlen]
  unfold censusOnceFifty censusTwiceFifty
  refine percentRows_append _ _ 0 _ _
    (percentRows_replicate rowPct1 rowPct2 30 0 fun k hk =>
      pctStep_once (0 + k) (pctRowIdx_lo k hk)) ?_
  have h2 : percentRows 30
      (List.replicate 12 rowPctRaw ++ List.replicate 8 rowPct1) =
      .ok (List.replicate 12 rowPctRaw ++ List.replicate 8 rowPct2) := by
    refine percentRows_append _ _ 30 _ _
      (percentRows_replicate rowPctRaw rowPctRaw 12 30 fun k hk =>
        pctStep_skip (30 + k) _ (pctRowIdx_mid k hk)) ?_
    simpa using percentRows_replicate rowPct1 rowPct2 8 42 fun k hk =>
      pctStep_once (42 + k) (pctRowIdx_hi k hk)
  simpa using h2

/-- Claim C3 (counterexample): applying the percent conversion a second time
to an already-converted 50-row table divides the converted cells by 100
again (0.5 becomes 0.005), so the percent-to-decimal conversion is not
idempotent as a function on tables. -/
theorem percent_conversion_not_idempotent :
    percentConvert censusRawFifty = .ok censusOnceFifty ∧
    percentConvert censusOnceFifty = .ok censusTwiceFifty ∧
    censusOnceFifty ≠ censusTwiceFifty := by
  refine ⟨percentConvert_raw, percentConvert_once, ?_⟩
  intro h
  have h0 : censusOnceFifty.getD 0 rowPctRaw = censusTwiceFifty.getD 0 rowPctRaw := by
    rw [h]
  have h1 : censusOnceFifty.getD 0 rowPctRaw = rowPct1 := rfl
  have h2 : censusTwiceFifty.getD 0 rowPctRaw = rowPct2 := rfl
  rw [h1, h2] at h0
  have hq : ((50 : ℚ) / 100) = 50 / 100 / 100 := by
    have hdemo := congrArg (fun r : CensusRow => r.demo) h0
    simpa [rowPct1, rowPct2] using hdemo
  norm_num at hq

theorem parseDecL_nonneg (l : List Char) (q : ℚ) (h : parseDecL l = some q) :
    0 ≤ q := by
  unfold parseDecL at h
  split at h
  · split_ifs at h
    injection h with h
    subst h
    positivity
  · split_ifs at h
    injection h with h
    subst h
    positivity
  · exact absurd h (by simp)

theorem pct_cell_good (c : Cell) (h : rawOk true c = true) :
    ∃ c', pctCell (zCell c) = .ok c' ∧ goodCell (toNumCell c') := by
  cases c with
  | num q => simp [rawOk] at h
  | na => simp [rawOk] at h
  | str s =>
    simp only [rawOk] at h
    rw [Bool.or_eq_true] at h
    rcases h with hz | hp
    · have hs : s = "Z" := by simpa using hz
      subst hs
      refine ⟨Cell.num ((((0 : ℕ) : ℚ) + ((0 : ℕ) : ℚ) / 10 ^ 1) / 100), rfl, ?_⟩
      refine Or.inl ⟨_, rfl, ?_, ?_⟩ <;> norm_num
    · split at hp
      next q heq =>
        have hq100 : q ≤ 100 := of_decide_eq_true hp
        have hq0 : 0 ≤ q := parseDecL_nonneg _ _ heq
        by_cases hs : s = "Z"
        · subst hs
          rw [show parseDecL (stripPct ("Z").data) = none from rfl] at heq
          cases heq
        · have hzc : zCell (Cell.str s) = Cell.str s := by simp [zCell, hs]
          rw [hzc]
          refine ⟨Cell.num (q / 100), ?_, ?_⟩
          · simp only [pctCell]
            rw [heq]
          · refine Or.inl ⟨q / 100, rfl, ?_, ?_⟩
            · positivity
            · rw [div_le_one (by norm_num)]
              linarith
      next heq => exact absurd hp (by simp)

theorem nonpct_cell_good (c : Cell) (h : rawOk false c = true) :
    goodCell (toNumCell (zCell c)) := by
  cases c with
  | num q => simp [rawOk] at h
  | na => simp [rawOk] at h
  | str s =>
    by_cases hs : s = "Z"
    · subst hs
      exact Or.inr rfl
    · have hzc : zCell (Cell.str s) = Cell.str s := by simp [zCell, hs]
      rw [hzc]
      simp only [rawOk] at h
      split at h
      next q heq =>
        have hq1 : q ≤ 1 := of_decide_eq_true h
        have hq0 : 0 ≤ q := parseDecL_nonneg _ _ heq
        simp only [toNumCell]
        rw [heq]
        exact Or.inl ⟨q, rfl, hq0, hq1⟩
      next heq =>
        simp only [toNumCell]
        rw [heq]
        exact Or.inr rfl

theorem pct_cells_good (cells : List Cell)
    (h : ∀ c ∈ cells, rawOk true c = true) :
    ∃ out, exceptMapCells pctCell (cells.map zCell) = .ok out ∧
      ∀ c' ∈ out, goodCell (toNumCell c') := by
  induction cells with
  | nil => exact ⟨[], rfl, by simp⟩
  | cons c cs ih =>
    rcases pct_cell_good c (h c (by simp)) with ⟨c', hc', hgood⟩
    rcases ih (fun x hx => h x (by simp [hx])) with ⟨out, hout, hgoods⟩
    refine ⟨c' :: out, ?_, ?_⟩
    · rw [List.map_cons]
      simp only [exceptMapCells]
      rw [hc', hout]
    · intro x hx
      rcases List.mem_cons.mp hx with rfl | hx
      · exact hgood
      · exact hgoods x hx

theorem percentRows_good :
    ∀ (rows : List CensusRow) (i : ℕ), rowsRawOk i rows = true →
      ∃ out, percentRows i (rows.map zRow) = .ok out ∧
        ∀ r' ∈ out, ∀ c ∈ r'.demo, goodCell (toNumCell c) := by
  intro rows
  induction rows with
  | nil => intro i _; exact ⟨[], rfl, by simp⟩
  | cons r rs ih =>
    intro i h
    rw [rowsRawOk, Bool.and_eq_true] at h
    rcases h with ⟨hrow, hrest⟩
    rcases ih (i + 1) hrest with ⟨out, hout, hgoods⟩
    rw [List.map_cons]
    simp only [percentRows]
    cases hpi : pctRowIdx i with
    | true =>
      rw [hpi] at hrow
      have hcells : ∀ c ∈ r.demo, rawOk true c = true := by
        intro c hc
        exact (List.all_eq_true.mp hrow) c hc
      rcases pct_cells_good r.demo hcells with ⟨dcells, hd, hdg⟩
      have hstep : percentStep i (zRow r) =
          .ok ⟨(zRow r).state, (zRow r).popEst, dcells⟩ := by
        unfold percentStep
        rw [hpi]
        simp [zRow, hd, Except.map]
      refine ⟨⟨(zRow r).state, (zRow r).popEst, dcells⟩ :: out, ?_, ?_⟩
      · rw [hstep, hout]
      · intro r' hr'
        rcases List.mem_cons.mp hr' with rfl | hr'
        · intro c hc
          exact hdg c hc
        · exact hgoods r' hr'
    | false =>
      rw [hpi] at hrow
      have hstep : percentStep i (zRow r) = .ok (zRow r) := by
        unfold percentStep
        rw [hpi]
        simp
      refine ⟨zRow r :: out, ?_, ?_⟩
      · rw [hstep, hout]
      · intro r' hr'
        rcases List.mem_cons.mp hr' with rfl | hr'
        · intro c hc
          rcases List.mem_map.mp (show c ∈ r.demo.map zCell from hc) with
            ⟨c0, hc0, rfl⟩
          exact nonpct_cell_good c0 ((List.all_eq_true.mp hrow) c0 hc0)
        · exact hgoods r' hr'

/-- Claim C7: on any 50-row selected census table whose raw demographic cells
are the sentinel, percent strings of value at most 100 (in the
percent-converted rows), or strings that are unparseable or of value at most
1 (in the unconverted rows), the cleaning pass succeeds and afterwards every
demographic cell is a number in [0.0, 1.0] or the missing-value marker — in
particular no cell is a string any more, so no percent sign and no sentinel
token remains. -/
theorem census_clean_invariant (t : List CensusRow) (hlen : t.length = 50)
    (hraw : rowsRawOk 0 t = true) :
    ∃ t', censusCleanCells t = .ok t' ∧
      (∀ r ∈ t', ∀ c ∈ r.demo, goodCell c) ∧
      ∀ r ∈ t', ∀ c ∈ r.demo, ∀ s, c ≠ Cell.str s := by
  rcases percentRows_good t 0 hraw with ⟨out, hout, hgoods⟩
  have hl : (49 : ℕ) < (t.map zRow).length := by
    rw [List.length_map, hlen]
    omega
  refine ⟨toNumeric out, ?_, ?_, ?_⟩
  · unfold censusCleanCells percentConvert zReplace
    rw [if_pos hl, hout]
    rfl
  · intro r hr c hc
    rcases List.mem_map.mp
      (show r ∈ out.map (fun r0 =>
        (⟨r0.state, toNumCell r0.popEst, r0.demo.map toNumCell⟩ : CensusRow))
       from hr) with ⟨r0, hr0, rfl⟩
    rcases List.mem_map.mp (show c ∈ r0.demo.map toNumCell from hc) with
      ⟨c0, hc0, rfl⟩
    exact hgoods r0 hr0 c0 hc0
  · intro r hr c hc s
    rcases List.mem_map.mp
      (show r ∈ out.map (fun r0 =>
        (⟨r0.state, toNumCell r0.popEst, r0.demo.map toNumCell⟩ : CensusRow))
       from hr) with ⟨r0, hr0, rfl⟩
    rcases List.mem_map.mp (show c ∈ r0.demo.map toNumCell from hc) with
      ⟨c0, hc0, rfl⟩
    rcases hgoods r0 hr0 c0 hc0 with ⟨q, hq, _⟩ | hq <;> simp [hq]

/-- Claim C7 witness: a concrete 50-row raw table of sentinel and unparseable
cells satisfies the precondition, and the invariant follows. -/
theorem census_clean_invariant_witness :
    ∃ t', censusCleanCells censusRawOkFifty = .ok t' ∧
      (∀ r ∈ t', ∀ c ∈ r.demo, goodCell c) ∧
      ∀ r ∈ t', ∀ c ∈ r.demo, ∀ s, c ≠ Cell.str s :=
  census_clean_invariant censusRawOkFifty (by decide) (by decide)

end FirearmCensus
